import Mathlib

/-!
Shallow embedding of the TeamPrompt frontend orchestration core.

The embedded code is the upload lifecycle manager (the `FileUploader`
component of `src/unnamed/part_002`, second component: `validateFiles`,
`uploadFile`, `handleFileUpload`, `removeFile`, `clearAll`) and the
conversation controller (the `ChatBox` component of `src/unnamed/part_003`:
`handleSend`, its inline context assembly and its inline error
classification).  React `useState` cells become explicit state records,
`fetch` calls become outcome parameters plus an emitted call trace, and
JavaScript strings become Lean `String`s (JS `number` scores are modelled
as `Rat`; no arithmetic is ever performed on them).
-/

/- ## JS string helpers -/

/-- Whitespace characters recognised by JS `String.prototype.trim` (ASCII part). -/
def isWs (c : Char) : Bool :=
  c = ' ' || c = '\t' || c = '\n' || c = '\r' || c = '\x0b' || c = '\x0c'

/-- Drop leading whitespace from a character list. -/
def trimLeftWs : List Char → List Char
  | [] => []
  | c :: cs => if isWs c then trimLeftWs cs else c :: cs

/-- Model of JS `s.trim()`: drop leading and trailing whitespace. -/
def jsTrim (s : String) : String :=
  String.mk ((trimLeftWs ((trimLeftWs s.data).reverse)).reverse)

/-- Model of JS falsiness of `s.trim()`: true when the trimmed string is empty. -/
def isBlank (s : String) : Bool := (jsTrim s).isEmpty

/-- `charsStartWith needle hay`: `needle` is a prefix of `hay` (character lists). -/
def charsStartWith : List Char → List Char → Bool
  | [], _ => true
  | _ :: _, [] => false
  | a :: as, b :: bs => a == b && charsStartWith as bs

/-- `charsContain needle hay`: `needle` occurs inside `hay` (character lists). -/
def charsContain (needle : List Char) : List Char → Bool
  | [] => charsStartWith needle []
  | c :: cs => charsStartWith needle (c :: cs) || charsContain needle cs

/-- Model of JS `hay.includes(needle)`. -/
def strContains (hay needle : String) : Bool := charsContain needle.data hay.data

/-- Model of JS `s.startsWith(p)`. -/
def strStartsWith (s p : String) : Bool := charsStartWith p.data s.data

/-- Model of JS `s.toLowerCase()` (ASCII case mapping). -/
def jsToLower (s : String) : String := String.mk (s.data.map Char.toLower)

/-- Model of JS `String.prototype.split` with a one-character separator:
`splitChar sep l` never returns `[]`; the empty list splits to `[[]]`. -/
def splitChar (sep : Char) : List Char → List (List Char)
  | [] => [[]]
  | c :: cs =>
    let r := splitChar sep cs
    if c = sep then [] :: r
    else
      match r with
      | [] => [[c]]
      | h :: t => (c :: h) :: t

/-- Model of JS `Array.prototype.join`. -/
def joinWith (sep : String) : List String → String
  | [] => ""
  | [x] => x
  | x :: y :: t => x ++ sep ++ joinWith sep (y :: t)

/- ## Upload manager (src/unnamed/part_002, second component) -/

/-- Status of a tracked file: `"uploading" | "success" | "error"`. -/
inductive Status where
  | uploading
  | success
  | error
deriving DecidableEq

/-- The validated part of a browser `File`: its name and byte size. -/
structure FileDesc where
  name : String
  size : Nat
deriving DecidableEq

/-- Entry of the `files` state list (`UploadedFile` in the source). -/
structure UploadedFile where
  name : String
  status : Status
  chunks : Option Nat := none
  errMsg : Option String := none
  docId : Option String := none
deriving DecidableEq

/-- `allowedTypes` constant of the upload manager. -/
def allowedTypes : List String := [".pdf", ".txt", ".html", ".md", ".docx", ".csv"]

/-- `maxFileSize` constant: 10 MB. -/
def maxFileSize : Nat := 10 * 1024 * 1024

/-- Extension derivation `"." + file.name.split(".").pop()?.toLowerCase()`. -/
def extOf (name : String) : String :=
  "." ++ jsToLower (String.mk ((splitChar '.' name.data).getLast?.getD []))

/-- Error text for an unsupported file type. -/
def typeErrMsg (name : String) : String :=
  "\"" ++ name ++ "\" is not supported. Use: " ++ joinWith ", " allowedTypes

/-- Error text for an oversized file. -/
def sizeErrMsg (name : String) : String :=
  "\"" ++ name ++ "\" exceeds 10MB limit"

/-- `validateFiles`: per file, in sequence order, check the extension and then
the size; return the first error, or `none` when the whole batch is valid. -/
def validateFiles : List FileDesc → Option String
  | [] => none
  | f :: rest =>
    if extOf f.name ∈ allowedTypes then
      if maxFileSize < f.size then some (sizeErrMsg f.name)
      else validateFiles rest
    else some (typeErrMsg f.name)

/-- A file is invalid when its extension is not allowed or it is oversized. -/
def fileInvalid (f : FileDesc) : Bool :=
  !(decide (extOf f.name ∈ allowedTypes)) || decide (maxFileSize < f.size)

/-- The error message `validateFiles` produces for an offending file. -/
def errMsgFor (f : FileDesc) : String :=
  if extOf f.name ∈ allowedTypes then sizeErrMsg f.name else typeErrMsg f.name

/-- Resolution of one `fetch` to `POST /upload-document`:
a 2xx response with body `{chunks, doc_id}`, a non-2xx response with an
optional parsed `detail`, or a transport failure. -/
inductive UploadOutcome where
  | ok (chunks : Nat) (docId : String)
  | httpErr (status : Nat) (detail : Option String)
  | netErr (msg : String)
deriving DecidableEq

/-- `uploadFile`: turn one request resolution into a terminal `UploadedFile`.
On a non-2xx response the message is `errorData.detail` when present and
non-empty (JS `||` treats `""` as falsy), else the generic fallback. -/
def uploadFile (f : FileDesc) : UploadOutcome → UploadedFile
  | UploadOutcome.ok c d =>
    { name := f.name, status := Status.success, chunks := some c, docId := some d }
  | UploadOutcome.httpErr s detail =>
    { name := f.name, status := Status.error,
      errMsg := some (match detail with
        | some d => if d.isEmpty then "Upload failed (" ++ toString s ++ ")" else d
        | none => "Upload failed (" ++ toString s ++ ")") }
  | UploadOutcome.netErr m =>
    { name := f.name, status := Status.error, errMsg := some m }

/-- The entry appended for each file before its upload resolves. -/
def initialEntry (f : FileDesc) : UploadedFile :=
  { name := f.name, status := Status.uploading }

/-- One step of result reconciliation: replace the first entry whose name
matches the result and whose status is still `uploading`
(the `findIndex` + assignment of `handleFileUpload`). -/
def reconcileOne : List UploadedFile → UploadedFile → List UploadedFile
  | [], _ => []
  | f :: fs, r =>
    if f.name = r.name ∧ f.status = Status.uploading then r :: fs
    else f :: reconcileOne fs r

/-- Reconcile every upload result, in order, into the tracked-file list. -/
def reconcile (files : List UploadedFile) (results : List UploadedFile) : List UploadedFile :=
  results.foldl reconcileOne files

/-- The upload manager's state cells: `files`, `error`, `isUploading`. -/
structure UploaderState where
  files : List UploadedFile
  error : Option String
  isUploading : Bool
deriving DecidableEq

/-- Result of one `handleFileUpload` run: the final state and the names of
the files actually sent over the network. -/
structure UploadRun where
  state : UploaderState
  netCalls : List String
deriving DecidableEq

/-- `handleFileUpload`: validate, and on failure surface the error with no
network activity; on success append one `uploading` entry per file, fire all
uploads, and reconcile the results. `outcomes` supplies each request's
resolution, positionally. -/
def handleFileUpload (st : UploaderState) (fileList : List FileDesc)
    (outcomes : List UploadOutcome) : UploadRun :=
  match validateFiles fileList with
  | some e => ⟨⟨st.files, some e, st.isUploading⟩, []⟩
  | none =>
    let files1 := st.files ++ fileList.map initialEntry
    let results := (fileList.zip outcomes).map (fun p => uploadFile p.1 p.2)
    ⟨⟨reconcile files1 results, none, false⟩, fileList.map (fun f => f.name)⟩

/-- `removeFile`: `prev.filter((_, i) => i !== index)`. -/
def removeFile (files : List UploadedFile) (idx : Nat) : List UploadedFile :=
  (files.enum.filter (fun pr => pr.1 != idx)).map Prod.snd

/-- `clearAll`: discard every tracked file and the error banner. -/
def clearAll (st : UploaderState) : UploaderState :=
  ⟨[], none, st.isUploading⟩

/- ## Conversation controller (src/unnamed/part_003) -/

/-- A retrieved passage as returned by `POST /query` (`QueryResult`). -/
structure Passage where
  content : String
  filename : String
  score : Rat
deriving DecidableEq

/-- Message roles `"user" | "bot"`. -/
inductive Role where
  | user
  | bot
deriving DecidableEq

/-- A chat message; an absent `sources` field is modelled as `[]`. -/
structure Message where
  role : Role
  content : String
  sources : List Passage := []
deriving DecidableEq

/-- The controller's state cells: `messages`, `input`, `loading`. -/
structure ChatState where
  messages : List Message
  input : String
  loading : Bool
deriving DecidableEq

/-- A network call issued by `handleSend`. -/
inductive NetCall where
  | query (q : String) (topK : Nat)
  | chat (q : String) (context : String)
deriving DecidableEq

/-- Whether a call targets the generation endpoint `POST /chat`. -/
def NetCall.isChat : NetCall → Bool
  | NetCall.query _ _ => false
  | NetCall.chat _ _ => true

/-- Resolution of the retrieval `fetch`: parsed `results`, a non-2xx status,
or a transport failure carrying the rejection message. -/
inductive QueryOutcome where
  | ok (results : List Passage)
  | httpErr (status : Nat)
  | netErr (msg : String)
deriving DecidableEq

/-- Resolution of the generation `fetch`. -/
inductive ChatOutcome where
  | ok (response : String)
  | httpErr (status : Nat)
  | netErr (msg : String)
deriving DecidableEq

/-- Fixed guidance message when no documents are available. -/
def noDocsMsg : String :=
  "Please upload some documents first so I can help answer questions about them."

/-- Fixed message when retrieval returns zero passages. -/
def noInfoMsg : String :=
  "I couldn\x27t find any relevant information in your documents to answer that question."

/-- Classified message for a transport-level failure. -/
def cantConnectMsg : String :=
  "Can\x27t connect to the server. Make sure it\x27s running;"

/-- Classified message for a retrieval failure. -/
def queryFailMsg : String :=
  "Failed to search documents. Please try again."

/-- Classified message for a generation failure. -/
def chatFailMsg : String :=
  "AI service unavailable. Check your OpenRouter API key."

/-- Default classified message. -/
def genericErrMsg : String :=
  "Sorry, something went wrong. Please try again."

/-- The `catch` block's failure classifier: lower-case the thrown message and
check the conditions in order, first match winning. -/
def classifyError (msg : String) : String :=
  if strContains (jsToLower msg) "failed to fetch" || strContains (jsToLower msg) "network" then
    cantConnectMsg
  else if strContains (jsToLower msg) "query failed" then queryFailMsg
  else if strContains (jsToLower msg) "chat failed" then chatFailMsg
  else genericErrMsg

/-- Source attribution prefix of each context entry. -/
def sourceTag (i : Nat) (filename : String) : String :=
  "Source " ++ toString i ++ " (" ++ filename ++ "):\n"

/-- One context entry: the attribution tag followed by the passage text. -/
def passageEntry (i : Nat) (r : Passage) : String :=
  sourceTag i r.filename ++ r.content

/-- Delimiter between context entries. -/
def contextSep : String := "\n\n---\n\n"

/-- Context assembly: `results.slice(0, 3).map((r, i) => ...).join(sep)`. -/
def assembleContext (rs : List Passage) : String :=
  joinWith contextSep ((rs.take 3).enum.map (fun pr => passageEntry (pr.1 + 1) pr.2))

/-- Result of one `handleSend` run: the final state and the calls issued. -/
structure SendResult where
  state : ChatState
  calls : List NetCall
deriving DecidableEq

/-- `handleSend`: the per-question pipeline of the conversation controller.
`qo` and `co` supply the resolutions of the retrieval and generation
requests; the trace records which requests were actually dispatched. -/
def handleSend (hasDocuments : Bool) (st : ChatState)
    (qo : QueryOutcome) (co : ChatOutcome) : SendResult :=
  if isBlank st.input || st.loading then ⟨st, []⟩
  else
    let q := st.input
    let msgs := st.messages ++ [⟨Role.user, q, []⟩]
    if !hasDocuments then
      ⟨⟨msgs ++ [⟨Role.bot, noDocsMsg, []⟩], "", false⟩, []⟩
    else
      match qo with
      | QueryOutcome.netErr m =>
        ⟨⟨msgs ++ [⟨Role.bot, classifyError m, []⟩], "", false⟩,
          [NetCall.query q 5]⟩
      | QueryOutcome.httpErr s =>
        ⟨⟨msgs ++ [⟨Role.bot, classifyError ("Query failed: " ++ toString s), []⟩], "", false⟩,
          [NetCall.query q 5]⟩
      | QueryOutcome.ok results =>
        if results.isEmpty then
          ⟨⟨msgs ++ [⟨Role.bot, noInfoMsg, []⟩], "", false⟩,
            [NetCall.query q 5]⟩
        else
          match co with
          | ChatOutcome.netErr m =>
            ⟨⟨msgs ++ [⟨Role.bot, classifyError m, []⟩], "", false⟩,
              [NetCall.query q 5, NetCall.chat q (assembleContext results)]⟩
          | ChatOutcome.httpErr s =>
            ⟨⟨msgs ++ [⟨Role.bot, classifyError ("Chat failed: " ++ toString s), []⟩], "", false⟩,
              [NetCall.query q 5, NetCall.chat q (assembleContext results)]⟩
          | ChatOutcome.ok resp =>
            ⟨⟨msgs ++ [⟨Role.bot, resp, results.take 3⟩], "", false⟩,
              [NetCall.query q 5, NetCall.chat q (assembleContext results)]⟩

/- ## Helper lemmas -/

lemma trimLeftWs_all_ws (l : List Char) (h : ∀ c ∈ l, isWs c = true) :
    trimLeftWs l = [] := by
  induction l with
  | nil => rfl
  | cons c cs ih =>
    have hc : isWs c = true := h c (List.mem_cons_self c cs)
    have hcs : ∀ d ∈ cs, isWs d = true := fun d hd => h d (List.mem_cons_of_mem c hd)
    simp [trimLeftWs, hc, ih hcs]

lemma isBlank_of_all_ws (s : String) (h : ∀ c ∈ s.data, isWs c = true) :
    isBlank s = true := by
  simp [isBlank, jsTrim, trimLeftWs_all_ws s.data h]
  rfl

lemma charsStartWith_self_append (a b : List Char) :
    charsStartWith a (a ++ b) = true := by
  induction a with
  | nil => rfl
  | cons c cs ih => simp [charsStartWith, ih]

lemma strStartsWith_append (pre t : String) :
    strStartsWith (pre ++ t) pre = true := by
  simp [strStartsWith, String.data_append, charsStartWith_self_append]

lemma strStartsWith_joinWith_cons (sep pre t : String) (xs : List String) :
    strStartsWith (joinWith sep ((pre ++ t) :: xs)) pre = true := by
  cases xs with
  | nil => simpa [joinWith] using strStartsWith_append pre t
  | cons y ys =>
    simp [joinWith, strStartsWith, String.data_append, List.append_assoc,
      charsStartWith_self_append]

lemma splitChar_no_sep (sep : Char) (l : List Char) (h : sep ∉ l) :
    splitChar sep l = [l] := by
  induction l with
  | nil => rfl
  | cons c cs ih =>
    have hc : ¬ c = sep := fun hcs => h (hcs ▸ List.mem_cons_self c cs)
    have hcs : sep ∉ cs := fun hm => h (List.mem_cons_of_mem c hm)
    simp [splitChar, hc, ih hcs]

lemma validateFiles_eq_of_find (files : List FileDesc) (f : FileDesc)
    (h : files.find? fileInvalid = some f) :
    validateFiles files = some (errMsgFor f) := by
  induction files with
  | nil => simp [List.find?] at h
  | cons g gs ih =>
    by_cases hg : fileInvalid g = true
    · have hfg : f = g := by
        rw [List.find?_cons_of_pos _ hg] at h
        exact (Option.some.inj h).symm
      subst hfg
      by_cases hx : extOf f.name ∈ allowedTypes
      · have hsz : maxFileSize < f.size := by
          simp [fileInvalid, hx] at hg
          exact hg
        simp [validateFiles, errMsgFor, hx, hsz]
      · simp [validateFiles, errMsgFor, hx]
    · have hrest : gs.find? fileInvalid = some f := by
        rwa [List.find?_cons_of_neg _ hg] at h
      have hok : extOf g.name ∈ allowedTypes ∧ ¬ maxFileSize < g.size := by
        constructor <;> by_contra hc <;> simp [fileInvalid, hc] at hg
      simp [validateFiles, hok.1, hok.2, ih hrest]

lemma reconcileOne_append_fresh (xs : List UploadedFile) (y r : UploadedFile)
    (hxs : ∀ g ∈ xs, ¬ (g.name = r.name ∧ g.status = Status.uploading))
    (hy : y.name = r.name ∧ y.status = Status.uploading) :
    reconcileOne (xs ++ [y]) r = xs ++ [r] := by
  induction xs with
  | nil => simp [reconcileOne, hy]
  | cons g gs ih =>
    have hg := hxs g (List.mem_cons_self g gs)
    have hgs : ∀ x ∈ gs, ¬ (x.name = r.name ∧ x.status = Status.uploading) :=
      fun x hx => hxs x (List.mem_cons_of_mem g hx)
    simp [reconcileOne, hg, ih hgs]

lemma reconcileOne_getElem?_frozen (files : List UploadedFile) (r : UploadedFile)
    (i : Nat) (e : UploadedFile) (he : files[i]? = some e)
    (ht : e.status ≠ Status.uploading) :
    (reconcileOne files r)[i]? = some e := by
  induction files generalizing i with
  | nil => simp at he
  | cons g gs ih =>
    by_cases hc : g.name = r.name ∧ g.status = Status.uploading
    · cases i with
      | zero =>
        simp at he
        exact absurd (he ▸ hc.2) ht
      | succ j =>
        simp [reconcileOne, hc]
        simpa using he
    · cases i with
      | zero =>
        simp at he
        subst he
        simp [reconcileOne, hc]
      | succ j =>
        simp at he
        simp [reconcileOne, hc]
        exact ih j he

lemma reconcile_getElem?_frozen (results : List UploadedFile)
    (files : List UploadedFile) (i : Nat) (e : UploadedFile)
    (he : files[i]? = some e) (ht : e.status ≠ Status.uploading) :
    (reconcile files results)[i]? = some e := by
  induction results generalizing files with
  | nil => simpa [reconcile]
  | cons r rs ih =>
    have h1 := reconcileOne_getElem?_frozen files r i e he ht
    simpa [reconcile] using ih (reconcileOne files r) h1

lemma snd_mem_of_mem_enumFrom {α : Type} (l : List α) (n : Nat) (pr : Nat × α)
    (h : pr ∈ l.enumFrom n) : pr.2 ∈ l := by
  induction l generalizing n with
  | nil => simp [List.enumFrom] at h
  | cons a as ih =>
    simp only [List.enumFrom, List.mem_cons] at h
    rcases h with h | h
    · simp [h]
    · exact List.mem_cons_of_mem a (ih (n + 1) h)

lemma mem_of_mem_removeFile (files : List UploadedFile) (idx : Nat)
    (g : UploadedFile) (h : g ∈ removeFile files idx) : g ∈ files := by
  simp only [removeFile, List.mem_map] at h
  obtain ⟨pr, hpr, hsnd⟩ := h
  have hmem : pr ∈ files.enum := (List.mem_filter.mp hpr).1
  exact hsnd ▸ snd_mem_of_mem_enumFrom files 0 pr hmem

/- ## Claim theorems -/

/-- C3: while a prior question's pipeline is in flight (the `loading` flag is
set), a new call to `handleSend` is ignored by the controller itself: no User
message is appended, no network call is issued, and the whole state is
unchanged. -/
theorem handleSend_busy_noop (hasDocuments : Bool) (st : ChatState)
    (qo : QueryOutcome) (co : ChatOutcome) (h : st.loading = true) :
    handleSend hasDocuments st qo co = ⟨st, []⟩ := by
  simp [handleSend, h]

/-- C3 witness: a concrete busy state is left untouched. -/
theorem handleSend_busy_noop_witness :
    handleSend true ⟨[], "hello", true⟩ (QueryOutcome.ok []) (ChatOutcome.ok "x") =
      ⟨⟨[], "hello", true⟩, []⟩ :=
  handleSend_busy_noop true ⟨[], "hello", true⟩ (QueryOutcome.ok []) (ChatOutcome.ok "x") rfl

/-- C10: for every input that is empty or consists only of whitespace,
`handleSend` is a complete no-op: no message is appended, no network call is
made, and the input buffer and busy flag are unchanged. -/
theorem handleSend_blank_input_noop (hasDocuments : Bool) (st : ChatState)
    (qo : QueryOutcome) (co : ChatOutcome) (h : ∀ c ∈ st.input.data, isWs c = true) :
    handleSend hasDocuments st qo co = ⟨st, []⟩ := by
  simp [handleSend, isBlank_of_all_ws st.input h]

/-- C10 witness: a whitespace-only input leaves a concrete state untouched. -/
theorem handleSend_blank_input_noop_witness :
    handleSend true ⟨[], "  ", false⟩ (QueryOutcome.ok []) (ChatOutcome.ok "x") =
      ⟨⟨[], "  ", false⟩, []⟩ :=
  handleSend_blank_input_noop true ⟨[], "  ", false⟩ (QueryOutcome.ok [])
    (ChatOutcome.ok "x") (by decide)

/-- C7: when documents are available and retrieval resolves with an empty
results list, the fixed no-relevant-information Assistant message is appended
with an empty sources list, only the retrieval call was issued, and the
generation endpoint is never called for that turn. -/
theorem handleSend_empty_retrieval_no_generation (st : ChatState) (co : ChatOutcome)
    (hb : isBlank st.input = false) (hl : st.loading = false) :
    (handleSend true st (QueryOutcome.ok []) co).state.messages =
      st.messages ++ [⟨Role.user, st.input, []⟩, ⟨Role.bot, noInfoMsg, []⟩] ∧
    (handleSend true st (QueryOutcome.ok []) co).calls = [NetCall.query st.input 5] ∧
    ∀ c ∈ (handleSend true st (QueryOutcome.ok []) co).calls, NetCall.isChat c = false := by
  refine ⟨?_, ?_, ?_⟩ <;> simp [handleSend, hb, hl, NetCall.isChat]

/-- C7 witness: concrete empty-retrieval turn. -/
theorem handleSend_empty_retrieval_no_generation_witness :
    (handleSend true ⟨[], "q", false⟩ (QueryOutcome.ok []) (ChatOutcome.ok "x")).state.messages =
      [⟨Role.user, "q", []⟩, ⟨Role.bot, noInfoMsg, []⟩] ∧
    (handleSend true ⟨[], "q", false⟩ (QueryOutcome.ok []) (ChatOutcome.ok "x")).calls =
      [NetCall.query "q" 5] := by
  have h := handleSend_empty_retrieval_no_generation ⟨[], "q", false⟩ (ChatOutcome.ok "x")
    (by decide) rfl
  exact ⟨by simpa using h.1, h.2.1⟩

/-- C8: the failure classifier checks its conditions in order with the first
match winning; a transport-level failure (whose message carries a transport
marker) is classified as the cannot-reach-backend message, even when the
message also contains the substring "500". -/
theorem classifyError_transport_first (msg : String)
    (h : strContains (jsToLower msg) "failed to fetch" = true ∨
         strContains (jsToLower msg) "network" = true) :
    classifyError msg = cantConnectMsg := by
  rcases h with h | h <;> simp [classifyError, h]

/-- C8 witness: "Failed to fetch: 500" contains "500" yet is classified as the
cannot-reach-backend message. -/
theorem classifyError_transport_first_witness :
    strContains "Failed to fetch: 500" "500" = true ∧
    classifyError "Failed to fetch: 500" = cantConnectMsg :=
  ⟨by decide, classifyError_transport_first "Failed to fetch: 500" (Or.inl (by decide))⟩

/-- Five concrete passages for the C1 counterexample. -/
def fivePassages : List Passage :=
  [⟨"c1", "d1.pdf", 1⟩, ⟨"c2", "d2.pdf", 1⟩, ⟨"c3", "d3.pdf", 1⟩,
   ⟨"c4", "d4.pdf", 1⟩, ⟨"c5", "d5.pdf", 1⟩]

/-- C1 counterexample: retrieval returns 5 passages and generation succeeds,
yet the appended Assistant message's sources list is not the 5 original
passages (the code attaches only `results.slice(0, 3)`). -/
theorem handleSend_sources_not_all_five :
    ¬ ((handleSend true ⟨[], "question", false⟩ (QueryOutcome.ok fivePassages)
          (ChatOutcome.ok "answer")).state.messages.getLast?.map Message.sources =
        some fivePassages) := by
  decide

/-- C1 amended: on generation success the appended Assistant message carries
the generated text with the first `min(3, k)` retrieval passages (exactly the
ones passed to context assembly) attached as sources, in their original
order; when at most 3 passages were retrieved this is all of them. -/
theorem handleSend_sources_top3 (st : ChatState) (results : List Passage) (resp : String)
    (hb : isBlank st.input = false) (hl : st.loading = false) (hne : results ≠ []) :
    (handleSend true st (QueryOutcome.ok results) (ChatOutcome.ok resp)).state.messages =
      st.messages ++ [⟨Role.user, st.input, []⟩, ⟨Role.bot, resp, results.take 3⟩] ∧
    (results.length ≤ 3 → results.take 3 = results) := by
  have hemp : results.isEmpty = false := by
    cases results with
    | nil => exact absurd rfl hne
    | cons a as => rfl
  exact ⟨by simp [handleSend, hb, hl, hemp], fun h => List.take_of_length_le h⟩

/-- C1 amended witness: a single retrieved passage is attached whole. -/
theorem handleSend_sources_top3_witness :
    (handleSend true ⟨[], "q", false⟩ (QueryOutcome.ok [⟨"c", "f.pdf", 1⟩])
        (ChatOutcome.ok "ans")).state.messages =
      [⟨Role.user, "q", []⟩, ⟨Role.bot, "ans", [⟨"c", "f.pdf", 1⟩]⟩] ∧
    ([⟨"c", "f.pdf", (1 : Rat)⟩] : List Passage).take 3 = [⟨"c", "f.pdf", 1⟩] := by
  have h := handleSend_sources_top3 ⟨[], "q", false⟩ [⟨"c", "f.pdf", 1⟩] "ans"
    (by decide) rfl (by simp)
  exact ⟨by simpa using h.1, h.2 (by simp)⟩

/-- A 100-character passage text for the C2 counterexample. -/
def hundredChars : String := String.mk (List.replicate 100 'A')

/-- C2 counterexample: assembling a single passage whose text is 100
characters does not yield a string of length at most 50 — the code applies
no character budget at all. -/
theorem assembleContext_ignores_char_budget :
    ¬ ((assembleContext [⟨hundredChars, "doc.pdf", 1⟩]).length ≤ 50) := by
  decide

/-- C2 amended: context assembly concatenates at most the first 3 passages in
their given order, each prefixed with its source attribution tag and joined
by the fixed blank-line/---/blank-line delimiter, with no character budget:
the result always starts with the first passage's attribution tag, and only
the first 3 passages ever contribute. -/
theorem assembleContext_top3_and_tagged :
    (∀ (p : Passage) (rest : List Passage),
        strStartsWith (assembleContext (p :: rest)) (sourceTag 1 p.filename) = true) ∧
    ∀ rs : List Passage, assembleContext rs = assembleContext (rs.take 3) := by
  constructor
  · intro p rest
    have h1 : assembleContext (p :: rest) =
        joinWith contextSep ((sourceTag 1 p.filename ++ p.content) ::
          ((rest.take 2).enumFrom 1).map (fun pr => passageEntry (pr.1 + 1) pr.2)) := rfl
    rw [h1]
    exact strStartsWith_joinWith_cons contextSep (sourceTag 1 p.filename) p.content _
  · intro rs
    simp [assembleContext, List.take_take]

/-- C4 counterexample: a file whose name contains no `.` does not get the
empty extension and does not always fail validation — a file literally named
"pdf" derives extension ".pdf" and passes. -/
theorem dotless_pdf_passes_validation :
    ('.' ∉ ("pdf" : String).data) ∧ extOf "pdf" = ".pdf" ∧ extOf "pdf" ≠ "" ∧
    validateFiles [⟨"pdf", 1⟩] = none := by
  decide

/-- C4 amended: the derived extension is "." followed by the lower-cased text
after the last `.`; for a file whose name contains no `.` it is "." followed
by the lower-cased whole name, and validation of such a file succeeds exactly
when that string happens to be an allowed extension and the size is within
the limit. -/
theorem extOf_dotless_amended (l : List Char) (sz : Nat) (hnd : '.' ∉ l) :
    extOf (String.mk l) = "." ++ jsToLower (String.mk l) ∧
    (validateFiles [⟨String.mk l, sz⟩] = none ↔
      ("." ++ jsToLower (String.mk l)) ∈ allowedTypes ∧ sz ≤ maxFileSize) := by
  have hext : extOf (String.mk l) = "." ++ jsToLower (String.mk l) := by
    simp [extOf, splitChar_no_sep '.' l hnd]
  refine ⟨hext, ?_⟩
  simp only [validateFiles]
  rw [hext]
  by_cases hx : ("." ++ jsToLower (String.mk l)) ∈ allowedTypes
  · by_cases hsz : maxFileSize < sz
    · simp [hx, hsz]
    · have hle : sz ≤ maxFileSize := Nat.le_of_not_lt hsz
      simp [hx, hsz, hle, validateFiles]
  · simp [hx]

/-- C4 amended witness: the dotless name "pdf" at size 1. -/
theorem extOf_dotless_amended_witness :
    extOf (String.mk ['p', 'd', 'f']) = "." ++ jsToLower (String.mk ['p', 'd', 'f']) ∧
    (validateFiles [⟨String.mk ['p', 'd', 'f'], 1⟩] = none ↔
      ("." ++ jsToLower (String.mk ['p', 'd', 'f'])) ∈ allowedTypes ∧ 1 ≤ maxFileSize) :=
  extOf_dotless_amended ['p', 'd', 'f'] 1 (by decide)

/-- C5: for every batch containing at least one invalid file,
`handleFileUpload` performs zero network calls, adds no tracked files, and
the reported validation error is the single message for the first offending
file in the batch's sequence order (whichever violation occurs first in that
order), with no aggregation of other offending files. -/
theorem handleFileUpload_first_offender_blocks (st : UploaderState)
    (files : List FileDesc) (outcomes : List UploadOutcome) (f : FileDesc)
    (h : files.find? fileInvalid = some f) :
    validateFiles files = some (errMsgFor f) ∧
    handleFileUpload st files outcomes =
      ⟨⟨st.files, some (errMsgFor f), st.isUploading⟩, []⟩ ∧
    (errMsgFor f = typeErrMsg f.name ∨ errMsgFor f = sizeErrMsg f.name) := by
  have hv := validateFiles_eq_of_find files f h
  refine ⟨hv, by simp [handleFileUpload, hv], ?_⟩
  by_cases hx : extOf f.name ∈ allowedTypes
  · exact Or.inr (by simp [errMsgFor, hx])
  · exact Or.inl (by simp [errMsgFor, hx])

/-- C5 witness: a batch whose first file has a disallowed extension is
rejected with that file's message and no upload is attempted. -/
theorem handleFileUpload_first_offender_blocks_witness :
    validateFiles [⟨"notes.exe", 10⟩] = some (errMsgFor ⟨"notes.exe", 10⟩) ∧
    handleFileUpload ⟨[], none, false⟩ [⟨"notes.exe", 10⟩] [] =
      ⟨⟨[], some (errMsgFor ⟨"notes.exe", 10⟩), false⟩, []⟩ ∧
    (errMsgFor ⟨"notes.exe", 10⟩ = typeErrMsg "notes.exe" ∨
      errMsgFor ⟨"notes.exe", 10⟩ = sizeErrMsg "notes.exe") :=
  handleFileUpload_first_offender_blocks ⟨[], none, false⟩ [⟨"notes.exe", 10⟩] []
    ⟨"notes.exe", 10⟩ (by decide)

/-- C6: a batch of one valid file whose upload request resolves with a 2xx
response carrying `{ chunks: c, doc_id: d }` ends with that file's tracked
entry in Success status with `chunks = c` and `docId = d`. -/
theorem handleFileUpload_single_success (st : UploaderState) (f : FileDesc)
    (c : Nat) (d : String) (hv : validateFiles [f] = none)
    (hfresh : ∀ g ∈ st.files, ¬ (g.name = f.name ∧ g.status = Status.uploading)) :
    handleFileUpload st [f] [UploadOutcome.ok c d] =
      ⟨⟨st.files ++ [⟨f.name, Status.success, some c, none, some d⟩], none, false⟩,
        [f.name]⟩ := by
  have hrec := reconcileOne_append_fresh st.files (initialEntry f)
    ⟨f.name, Status.success, some c, none, some d⟩
    (fun g hg => hfresh g hg) ⟨rfl, rfl⟩
  simp [handleFileUpload, hv, reconcile, uploadFile, hrec]

/-- C6 witness: one valid `.pdf` under 10MB whose response reports 7 chunks
and document id "doc-1". -/
theorem handleFileUpload_single_success_witness :
    handleFileUpload ⟨[], none, false⟩ [⟨"report.pdf", 1024⟩]
        [UploadOutcome.ok 7 "doc-1"] =
      ⟨⟨[⟨"report.pdf", Status.success, some 7, none, some "doc-1"⟩], none, false⟩,
        ["report.pdf"]⟩ := by
  have h := handleFileUpload_single_success ⟨[], none, false⟩ ⟨"report.pdf", 1024⟩
    7 "doc-1" (by decide) (by simp)
  simpa using h

/-- C9: tracked-file statuses are monotonic: every entry is created in
Uploading status, result reconciliation never touches an entry whose status
is already terminal (Success or Error), and removal / clear-all only delete
entries, never altering a remaining entry. -/
theorem trackedFile_terminal_status_stable (files results : List UploadedFile)
    (i : Nat) (e : UploadedFile) (he : files[i]? = some e)
    (ht : e.status ≠ Status.uploading) :
    (∀ f : FileDesc, (initialEntry f).status = Status.uploading) ∧
    (reconcile files results)[i]? = some e ∧
    (∀ idx g, g ∈ removeFile files idx → g ∈ files) ∧
    ∀ st : UploaderState, (clearAll st).files = [] :=
  ⟨fun _ => rfl, reconcile_getElem?_frozen results files i e he ht,
    fun idx g hg => mem_of_mem_removeFile files idx g hg, fun _ => rfl⟩

/-- C9 witness: a Success entry survives reconciliation of a same-named
error result untouched. -/
theorem trackedFile_terminal_status_stable_witness :
    (reconcile [⟨"a.pdf", Status.success, some 2, none, some "d1"⟩]
        [⟨"a.pdf", Status.error, none, some "boom", none⟩])[0]? =
      some ⟨"a.pdf", Status.success, some 2, none, some "d1"⟩ :=
  (trackedFile_terminal_status_stable
    [⟨"a.pdf", Status.success, some 2, none, some "d1"⟩]
    [⟨"a.pdf", Status.error, none, some "boom", none⟩] 0
    ⟨"a.pdf", Status.success, some 2, none, some "d1"⟩ rfl (by decide)).2.1
